import Mathlib

/-!
# Battery-Quality-Control-Reliability-Analysis: verification of `src/utils.py`

A shallow embedding of the two utility classes of the repository
(`BatteryDataLoader` and `StatisticalAnalyzer`) and proofs of the spec's
testable properties about them.

Modelling conventions:
* Finite Python/NumPy floating-point values are idealised as rationals (`ℚ`);
  the claims settled here are about control flow, data flow and exact algebra,
  not about rounding.
* Python exceptions are modelled by `Except PyErr`; a function that can raise
  returns `Except`/`Option`.
* NumPy's non-finite doubles (`inf`, `-inf`, `nan`) appear where the source can
  produce them (division by a zero standard error); they are modelled by the
  type `NpFloat`, with IEEE-754 special-value rules for the operations the
  source performs.  NumPy floating-point anomalies emit `RuntimeWarning`s, not
  exceptions, and the module opens with `warnings.filterwarnings('ignore')`,
  so no warning is visible: these paths return normally.
* Transcendental library routines (`scipy.stats.norm.cdf`, `norm.ppf`,
  `np.sqrt`, and the Weibull maximum-likelihood optimiser) are taken as
  parameters of the embedding: the source only pipes their results around, and
  every theorem states explicitly which facts about them it uses.
-/

namespace BatteryQC

/-- Python exceptions that the code under `src/utils.py` can raise. -/
inductive PyErr where
  /-- Python `FileNotFoundError`, raised by `scipy.io.loadmat` on a missing file. -/
  | fileNotFoundError
  /-- Python `KeyError`, raised by `data['cycle']` / `data['capacity']` when the
  column is absent from the loaded record. -/
  | keyError
  /-- Python `IndexError`, raised by `capacity[0]` on an empty sequence. -/
  | indexError
  /-- Python `ZeroDivisionError`, raised by Python scalar division by integer zero. -/
  | zeroDivisionError
deriving DecidableEq

/-! ## `BatteryDataLoader.calculate_lifetime`

```python
initial_capacity = capacity[0]
target_capacity = threshold * initial_capacity
below_threshold = np.where(capacity < target_capacity)[0]
if len(below_threshold) > 0:
    return below_threshold[0]
else:
    return len(capacity) - 1
```

`capacity[0]` raises `IndexError` on an empty array, modelled by `none`.
`np.where(capacity < target)[0]` is the increasing list of indices whose
capacity is below target, so `below_threshold[0]`, guarded by the emptiness
test, is exactly `List.findIdx?` of the predicate. -/

def calculate_lifetime (capacity : List ℚ) (threshold : ℚ := 4/5) : Option Nat :=
  match capacity with
  | [] => none
  | initial_capacity :: _ =>
    let target_capacity := threshold * initial_capacity
    match capacity.findIdx? (fun c => decide (c < target_capacity)) with
    | some i => some i
    | none => some (capacity.length - 1)

/-- The capacity series of the spec's worked example:
`[2.0, 1.9, 1.8, 1.5, 1.0]`. -/
def demoCapacity : List ℚ := [2, 19/10, 18/10, 3/2, 1]

/-- C1: on a non-empty capacity series whose first element is above
`threshold * capacity[0]` and that contains an element strictly below
`threshold * capacity[0]`, `calculate_lifetime` returns the index of the
first such element. -/
theorem calculate_lifetime_first_below (c0 : ℚ) (rest : List ℚ) (threshold : ℚ)
    (habove : threshold * c0 < c0)
    (hex : ∃ x ∈ c0 :: rest, x < threshold * c0) :
    ∃ i, calculate_lifetime (c0 :: rest) threshold = some i ∧
      i < (c0 :: rest).length ∧
      (c0 :: rest).getD i 0 < threshold * c0 ∧
      ∀ j, j < i → threshold * c0 ≤ (c0 :: rest).getD j 0 := by
  obtain ⟨x, hx, hxlt⟩ := hex
  have hany : (c0 :: rest).any (fun c => decide (c < threshold * c0)) = true :=
    List.any_eq_true.mpr ⟨x, hx, by simpa using hxlt⟩
  have hisSome :
      ((c0 :: rest).findIdx? (fun c => decide (c < threshold * c0))).isSome = true := by
    rw [List.findIdx?_isSome]
    exact hany
  obtain ⟨i, hi⟩ := Option.isSome_iff_exists.mp hisSome
  have hi' := hi
  rw [List.findIdx?_eq_some_iff_getElem] at hi'
  obtain ⟨hlen, hpi, hprev⟩ := hi'
  refine ⟨i, ?_, hlen, ?_, ?_⟩
  · simp only [calculate_lifetime, hi]
  · rw [List.getD_eq_getElem?_getD, List.getElem?_eq_getElem hlen]
    simpa using hpi
  · intro j hj
    have hjlen : j < (c0 :: rest).length := Nat.lt_trans hj hlen
    rw [List.getD_eq_getElem?_getD, List.getElem?_eq_getElem hjlen]
    have := hprev j hj
    simpa using this

/-- C1 witness: the spec's worked example `calculate_lifetime([2.0, 1.9, 1.8,
1.5, 1.0], threshold=0.8)`, whose target is `1.6` and whose answer is
index `3`. -/
theorem calculate_lifetime_first_below_witness :
    ((4:ℚ)/5 * 2 < 2) ∧ (∃ x ∈ demoCapacity, x < (4:ℚ)/5 * 2) ∧
    (∃ i, calculate_lifetime demoCapacity (4/5) = some i ∧
      i < demoCapacity.length ∧
      demoCapacity.getD i 0 < (4:ℚ)/5 * 2 ∧
      ∀ j, j < i → (4:ℚ)/5 * 2 ≤ demoCapacity.getD j 0) ∧
    calculate_lifetime demoCapacity (4/5) = some 3 :=
  ⟨by norm_num, ⟨3/2, by norm_num [demoCapacity], by norm_num⟩,
    calculate_lifetime_first_below 2 [19/10, 18/10, 3/2, 1] (4/5) (by norm_num)
      ⟨3/2, by norm_num [demoCapacity], by norm_num⟩,
    by norm_num [calculate_lifetime, demoCapacity]⟩

/-- C2: on a non-empty capacity series none of whose elements is strictly
below `threshold * capacity[0]`, `calculate_lifetime` returns
`length - 1`, the last valid index (the censored-lifetime convention). -/
theorem calculate_lifetime_censored (c0 : ℚ) (rest : List ℚ) (threshold : ℚ)
    (h : ∀ x ∈ c0 :: rest, ¬ x < threshold * c0) :
    calculate_lifetime (c0 :: rest) threshold = some ((c0 :: rest).length - 1) := by
  have hnone : (c0 :: rest).findIdx? (fun c => decide (c < threshold * c0)) = none := by
    rw [List.findIdx?_eq_none_iff]
    intro x hx
    simpa using h x hx
  simp only [calculate_lifetime, hnone]

/-- C2 witness: a two-cycle series that never crosses the threshold is
assigned lifetime `1 = length - 1`. -/
theorem calculate_lifetime_censored_witness :
    (∀ x ∈ [(2:ℚ), 2], ¬ x < (4:ℚ)/5 * 2) ∧
    calculate_lifetime [2, 2] (4/5) = some 1 := by
  have hmem : ∀ x ∈ [(2:ℚ), 2], ¬ x < (4:ℚ)/5 * 2 := by
    intro x hx
    simp only [List.mem_cons, List.not_mem_nil, or_false] at hx
    rcases hx with rfl | rfl <;> norm_num
  exact ⟨hmem, calculate_lifetime_censored 2 [2] (4/5) hmem⟩

/-- C9: `calculate_lifetime` reads `capacity[0]` before scanning, so it fails
with `IndexError` (modelled `none`) on the empty series; on every non-empty
series, for any threshold, it returns an index between `0` and
`length - 1` inclusive. -/
theorem calculate_lifetime_index_safety :
    (∀ threshold : ℚ, calculate_lifetime [] threshold = none) ∧
    (∀ (c0 : ℚ) (rest : List ℚ) (threshold : ℚ), ∃ i,
      calculate_lifetime (c0 :: rest) threshold = some i ∧
      i ≤ (c0 :: rest).length - 1) := by
  refine ⟨fun _ => rfl, fun c0 rest threshold => ?_⟩
  match hfi : (c0 :: rest).findIdx? (fun c => decide (c < threshold * c0)) with
  | some i =>
    refine ⟨i, by simp only [calculate_lifetime, hfi], ?_⟩
    rw [List.findIdx?_eq_some_iff_getElem] at hfi
    exact Nat.le_sub_one_of_lt hfi.1
  | none =>
    exact ⟨(c0 :: rest).length - 1, by simp only [calculate_lifetime, hfi], Nat.le_refl _⟩

/-- C9 witness: the two parts of the safety statement instantiated at the
empty series and at a singleton series. -/
theorem calculate_lifetime_index_safety_witness :
    calculate_lifetime [] (4/5) = none ∧
    ∃ i, calculate_lifetime [(2:ℚ)] (4/5) = some i ∧
      i ≤ ([(2:ℚ)] : List ℚ).length - 1 :=
  ⟨calculate_lifetime_index_safety.1 (4/5),
    calculate_lifetime_index_safety.2 2 [] (4/5)⟩

/-! ## `BatteryDataLoader.load_battery_data` and `extract_lifetimes_from_folder`

The `.mat` record store is modelled as a partial map from file paths to
records; `none` is a missing file (`scipy.io.loadmat` raises
`FileNotFoundError`).  A loaded dictionary may or may not contain each
column; `data['cycle']` / `data['capacity']` on a missing column raise
`KeyError`, while `'impedance' in data` is tested explicitly and a zero
sequence of the capacity's length (`np.zeros_like`) is substituted. -/

/-- A `.mat` dictionary as `scipy.io.loadmat` returns it: each column that is
present is a numeric sequence (the `[:, 0]` first-column view). -/
structure MatFile where
  cycle : Option (List ℚ)
  capacity : Option (List ℚ)
  impedance : Option (List ℚ)

/-- The dictionary `load_battery_data` returns. -/
structure BatteryRecord where
  cycle : List ℚ
  capacity : List ℚ
  impedance : List ℚ

/-- Embedding of `BatteryDataLoader.load_battery_data`:

```python
data = scipy.io.loadmat(file_path)
cycles = data['cycle'][:, 0]
capacity = data['capacity'][:, 0]
if 'impedance' in data:
    impedance = data['impedance'][:, 0]
else:
    impedance = np.zeros_like(capacity)
return {'cycle': cycles, 'capacity': capacity, 'impedance': impedance}
``` -/
def load_battery_data (fs : String → Option MatFile) (file_path : String) :
    Except PyErr BatteryRecord :=
  match fs file_path with
  | none => .error .fileNotFoundError
  | some data =>
    match data.cycle with
    | none => .error .keyError
    | some cycles =>
      match data.capacity with
      | none => .error .keyError
      | some capacity =>
        let impedance :=
          match data.impedance with
          | some imp => imp
          | none => List.replicate capacity.length 0
        .ok { cycle := cycles, capacity := capacity, impedance := impedance }

/-- Python's `str.zfill`: left-pad with zeros to the given width. -/
def zfill (s : String) (width : Nat) : String :=
  if width ≤ s.length then s
  else String.mk (List.replicate (width - s.length) '0') ++ s

/-- The generated record identifier `f"B{str(i).zfill(4)}.mat"`. -/
def file_name (i : Nat) : String :=
  "B" ++ zfill (toString i) 4 ++ ".mat"

/-- The body of the `for` loop of `extract_lifetimes_from_folder`, run over
the remaining unit indices with the lists accumulated so far.  The `try`
block catches exactly `FileNotFoundError` (`continue`); every other
exception propagates and aborts the whole extraction.  `calculate_lifetime`
and `data['capacity'][0]` both raise `IndexError` on an empty capacity
column, which that `except` clause does not catch. -/
def extract_go (fs : String → Option MatFile) (folder_path : String) :
    List Nat → List Nat × List ℚ → Except PyErr (List Nat × List ℚ)
  | [], acc => .ok acc
  | i :: rest, acc =>
    match load_battery_data fs (folder_path ++ "/" ++ file_name i) with
    | .error .fileNotFoundError => extract_go fs folder_path rest acc
    | .error e => .error e
    | .ok data =>
      match calculate_lifetime data.capacity, data.capacity with
      | none, _ => .error .indexError
      | some _, [] => .error .indexError
      | some lifetime, c0 :: _ =>
        extract_go fs folder_path rest (acc.1 ++ [lifetime], acc.2 ++ [c0])

/-- Embedding of `BatteryDataLoader.extract_lifetimes_from_folder`: iterate unit indices
`1 .. num_batteries` inclusive (`range(1, num_batteries + 1)`), building
the parallel lists of lifetimes and initial capacities. -/
def extract_lifetimes_from_folder (fs : String → Option MatFile)
    (folder_path : String) (num_batteries : Nat := 10) :
    Except PyErr (List Nat × List ℚ) :=
  extract_go fs folder_path (List.range' 1 num_batteries) ([], [])

/-- The outcome of one loop iteration for unit `i`: `.ok none` when the
record file is missing (the unit is skipped), `.ok (some (lifetime, c0))`
when the unit contributes a lifetime and an initial capacity, `.error e`
when an exception other than `FileNotFoundError` aborts the extraction. -/
def unit_outcome (fs : String → Option MatFile) (folder_path : String)
    (i : Nat) : Except PyErr (Option (Nat × ℚ)) :=
  match load_battery_data fs (folder_path ++ "/" ++ file_name i) with
  | .error .fileNotFoundError => .ok none
  | .error e => .error e
  | .ok data =>
    match calculate_lifetime data.capacity, data.capacity with
    | none, _ => .error .indexError
    | some _, [] => .error .indexError
    | some lifetime, c0 :: _ => .ok (some (lifetime, c0))

/-- The `(lifetime, initial_capacity)` pairs contributed by the units of
`units` that load successfully. -/
def collected (fs : String → Option MatFile) (folder_path : String)
    (units : List Nat) : List (Nat × ℚ) :=
  units.filterMap (fun i =>
    match unit_outcome fs folder_path i with
    | .ok (some p) => some p
    | _ => none)

/-- One unfolding of the loop, phrased through `unit_outcome`. -/
theorem extract_go_cons (fs : String → Option MatFile) (folder_path : String)
    (i : Nat) (rest : List Nat) (acc : List Nat × List ℚ) :
    extract_go fs folder_path (i :: rest) acc =
      match unit_outcome fs folder_path i with
      | .ok none => extract_go fs folder_path rest acc
      | .ok (some p) => extract_go fs folder_path rest (acc.1 ++ [p.1], acc.2 ++ [p.2])
      | .error e => .error e := by
  rcases hload : load_battery_data fs (folder_path ++ "/" ++ file_name i) with e | data
  · cases e <;> simp only [extract_go, unit_outcome, hload]
  · rcases hlt : calculate_lifetime data.capacity with _ | lifetime <;>
      rcases hcap : data.capacity with _ | ⟨c0, cs⟩ <;>
      rw [hcap] at hlt <;>
      simp only [extract_go, unit_outcome, hload, hlt, hcap]

/-- When every remaining unit either loads successfully or is missing, the
loop returns the accumulators extended with the collected pairs. -/
theorem extract_go_ok (fs : String → Option MatFile) (folder_path : String) :
    ∀ (units : List Nat) (ls : List Nat) (cs : List ℚ),
      (∀ i ∈ units, (unit_outcome fs folder_path i).isOk = true) →
      extract_go fs folder_path units (ls, cs) =
        .ok (ls ++ (collected fs folder_path units).map Prod.fst,
             cs ++ (collected fs folder_path units).map Prod.snd)
  | [], ls, cs, _ => by simp [extract_go, collected]
  | i :: rest, ls, cs, h => by
    have hi := h i (List.mem_cons_self i rest)
    have hrest : ∀ j ∈ rest, (unit_outcome fs folder_path j).isOk = true :=
      fun j hj => h j (List.mem_cons_of_mem _ hj)
    rcases hu : unit_outcome fs folder_path i with e | p
    · rw [hu] at hi
      simp [Except.isOk, Except.toBool] at hi
    · rcases p with _ | ⟨l, c⟩
      · rw [extract_go_cons, hu]
        simp [collected, List.filterMap_cons, hu,
          extract_go_ok fs folder_path rest ls cs hrest]
      · rw [extract_go_cons, hu]
        have hrec := extract_go_ok fs folder_path rest (ls ++ [l]) (cs ++ [c]) hrest
        simp [collected, List.filterMap_cons, hu, hrec, List.append_assoc]

/-- The first unit whose iteration raises anything other than
`FileNotFoundError` aborts the whole extraction with that exception. -/
theorem extract_go_error (fs : String → Option MatFile) (folder_path : String)
    (i : Nat) (post : List Nat) (e : PyErr) :
    ∀ (pre : List Nat) (ls : List Nat) (cs : List ℚ),
      (∀ j ∈ pre, (unit_outcome fs folder_path j).isOk = true) →
      unit_outcome fs folder_path i = .error e →
      extract_go fs folder_path (pre ++ i :: post) (ls, cs) = .error e
  | [], ls, cs, _, he => by
    rw [List.nil_append, extract_go_cons, he]
  | j :: pre, ls, cs, h, he => by
    have hj := h j (List.mem_cons_self j pre)
    have hpre : ∀ k ∈ pre, (unit_outcome fs folder_path k).isOk = true :=
      fun k hk => h k (List.mem_cons_of_mem _ hk)
    rw [List.cons_append, extract_go_cons]
    rcases hu : unit_outcome fs folder_path j with e' | p
    · rw [hu] at hj
      simp [Except.isOk, Except.toBool] at hj
    · rcases p with _ | ⟨l, c⟩
      · exact extract_go_error fs folder_path i post e pre ls cs hpre he
      · exact extract_go_error fs folder_path i post e pre (ls ++ [l]) (cs ++ [c]) hpre he

/-! ### The spec's worked extraction example: units 1, 2, 4 present out of 5 -/

/-- The folder path of the worked example. -/
def demoFolder : String := "data"

/-- The record stored for each present unit of the worked example: five
cycles, the `demoCapacity` degradation series, no impedance column. -/
def demoFile : MatFile :=
  { cycle := some [1, 2, 3, 4, 5], capacity := some demoCapacity, impedance := none }

/-- The record `load_battery_data` builds from `demoFile` (a zero impedance
series of the capacity's length is substituted). -/
def demoRecord : BatteryRecord :=
  { cycle := [1, 2, 3, 4, 5], capacity := demoCapacity,
    impedance := List.replicate 5 0 }

/-- A record store holding files only for units 1, 2 and 4. -/
def demoFS : String → Option MatFile := fun path =>
  if path = demoFolder ++ "/" ++ file_name 1 ∨
      path = demoFolder ++ "/" ++ file_name 2 ∨
      path = demoFolder ++ "/" ++ file_name 4 then
    some demoFile
  else none

theorem demoCapacity_lifetime : calculate_lifetime demoCapacity = some 3 := by
  norm_num [calculate_lifetime, demoCapacity]

theorem demo_load_present (i : Nat)
    (h : demoFS (demoFolder ++ "/" ++ file_name i) = some demoFile) :
    load_battery_data demoFS (demoFolder ++ "/" ++ file_name i) = .ok demoRecord := by
  simp only [load_battery_data, h, demoFile, demoRecord, demoCapacity]
  rfl

theorem demo_unit_present (i : Nat)
    (h : demoFS (demoFolder ++ "/" ++ file_name i) = some demoFile) :
    unit_outcome demoFS demoFolder i = .ok (some (3, 2)) := by
  have hcap : demoRecord.capacity = 2 :: [19/10, 18/10, 3/2, 1] := rfl
  have hlt : calculate_lifetime (2 :: [19/10, 18/10, 3/2, 1]) = some 3 :=
    demoCapacity_lifetime
  simp only [unit_outcome, demo_load_present i h, hcap, hlt]

theorem demo_unit_absent (i : Nat)
    (h : demoFS (demoFolder ++ "/" ++ file_name i) = none) :
    unit_outcome demoFS demoFolder i = .ok none := by
  simp only [unit_outcome, load_battery_data, h]

theorem demo_unit1 : unit_outcome demoFS demoFolder 1 = .ok (some (3, 2)) :=
  demo_unit_present 1 (by simp [demoFS])

theorem demo_unit2 : unit_outcome demoFS demoFolder 2 = .ok (some (3, 2)) :=
  demo_unit_present 2 (by simp [demoFS])

theorem demo_unit4 : unit_outcome demoFS demoFolder 4 = .ok (some (3, 2)) :=
  demo_unit_present 4 (by simp [demoFS])

theorem demo_unit3 : unit_outcome demoFS demoFolder 3 = .ok none :=
  demo_unit_absent 3 (by simp only [demoFS]; exact if_neg (by decide))

theorem demo_unit5 : unit_outcome demoFS demoFolder 5 = .ok none :=
  demo_unit_absent 5 (by simp only [demoFS]; exact if_neg (by decide))

theorem demo_collected :
    collected demoFS demoFolder (List.range' 1 5) = [(3, 2), (3, 2), (3, 2)] := by
  have r : List.range' 1 5 = [1, 2, 3, 4, 5] := rfl
  rw [r]
  simp [collected, List.filterMap_cons, demo_unit1, demo_unit2, demo_unit3,
    demo_unit4, demo_unit5]

theorem demo_all_ok :
    ∀ i ∈ List.range' 1 5, (unit_outcome demoFS demoFolder i).isOk = true := by
  have r : List.range' 1 5 = [1, 2, 3, 4, 5] := rfl
  rw [r]
  intro i hi
  simp only [List.mem_cons, List.not_mem_nil, or_false] at hi
  rcases hi with rfl | rfl | rfl | rfl | rfl
  · rw [demo_unit1]; rfl
  · rw [demo_unit2]; rfl
  · rw [demo_unit3]; rfl
  · rw [demo_unit4]; rfl
  · rw [demo_unit5]; rfl

/-- C4: `extract_lifetimes_from_folder` iterates unit indices `1..count`
inclusive; a missing record file makes the loop skip that unit only, any
other per-unit failure propagates and aborts the extraction, and with
`count = 5` and only units 1, 2, 4 present it returns the 3-element
lifetime sequence (with the parallel initial-capacity sequence). -/
theorem extract_lifetimes_skip_and_propagate :
    (∀ (fs : String → Option MatFile) (folder_path : String) (count : Nat),
      (∀ i ∈ List.range' 1 count, (unit_outcome fs folder_path i).isOk = true) →
      extract_lifetimes_from_folder fs folder_path count =
        .ok ((collected fs folder_path (List.range' 1 count)).map Prod.fst,
             (collected fs folder_path (List.range' 1 count)).map Prod.snd)) ∧
    (∀ (fs : String → Option MatFile) (folder_path : String) (count : Nat)
      (pre : List Nat) (i : Nat) (post : List Nat) (e : PyErr),
      List.range' 1 count = pre ++ i :: post →
      (∀ j ∈ pre, (unit_outcome fs folder_path j).isOk = true) →
      unit_outcome fs folder_path i = .error e →
      extract_lifetimes_from_folder fs folder_path count = .error e) ∧
    extract_lifetimes_from_folder demoFS demoFolder 5 =
      .ok ([3, 3, 3], [2, 2, 2]) := by
  refine ⟨?_, ?_, ?_⟩
  · intro fs folder_path count h
    rw [extract_lifetimes_from_folder, extract_go_ok fs folder_path _ [] [] h]
    simp
  · intro fs folder_path count pre i post e hsplit hpre he
    rw [extract_lifetimes_from_folder, hsplit,
      extract_go_error fs folder_path i post e pre [] [] hpre he]
  · rw [extract_lifetimes_from_folder, extract_go_ok demoFS demoFolder _ [] [] demo_all_ok,
      demo_collected]
    simp

/-- C4 witness: the general skip-on-missing conclusion applied to the
concrete store holding units 1, 2 and 4 out of 5. -/
theorem extract_lifetimes_skip_and_propagate_witness :
    (∀ i ∈ List.range' 1 5, (unit_outcome demoFS demoFolder i).isOk = true) ∧
    extract_lifetimes_from_folder demoFS demoFolder 5 =
      .ok ((collected demoFS demoFolder (List.range' 1 5)).map Prod.fst,
           (collected demoFS demoFolder (List.range' 1 5)).map Prod.snd) :=
  ⟨demo_all_ok,
    extract_lifetimes_skip_and_propagate.1 demoFS demoFolder 5 demo_all_ok⟩

/-! ## `StatisticalAnalyzer.bayesian_update`

```python
posterior_alpha = prior_alpha + successes
posterior_beta = prior_beta + trials - successes
return posterior_alpha, posterior_beta
``` -/

/-- Embedding of `StatisticalAnalyzer.bayesian_update`: the Beta-Binomial
conjugate update, pure arithmetic with no validation of any kind. -/
def bayesian_update (prior_alpha prior_beta successes trials : ℚ) : ℚ × ℚ :=
  (prior_alpha + successes, prior_beta + trials - successes)

/-- C6: `bayesian_update` returns exactly
`(prior_alpha + successes, prior_beta + trials - successes)`, and in
particular `bayesian_update(1, 1, 7, 10) = (8, 4)`. -/
theorem bayesian_update_formula :
    (∀ prior_alpha prior_beta successes trials : ℚ,
      bayesian_update prior_alpha prior_beta successes trials =
        (prior_alpha + successes, prior_beta + trials - successes)) ∧
    bayesian_update 1 1 7 10 = (8, 4) := by
  refine ⟨fun a b s n => rfl, ?_⟩
  norm_num [bayesian_update]

/-- C6 witness: the general formula instantiated at `(2, 3, 4, 5)`, together
with the spec's worked example. -/
theorem bayesian_update_formula_witness :
    bayesian_update 2 3 4 5 = (2 + 4, 3 + 5 - 4) ∧
    bayesian_update 1 1 7 10 = (8, 4) :=
  ⟨bayesian_update_formula.1 2 3 4 5, bayesian_update_formula.2⟩

/-- C5: feeding the posterior of one update in as the prior of a second
update gives the same pair as a single update with the combined
successes and trials (additivity of the conjugate update). -/
theorem bayesian_update_additive (a b s n s2 n2 : ℚ) :
    bayesian_update (bayesian_update a b s n).1 (bayesian_update a b s n).2 s2 n2 =
      bayesian_update a b (s + s2) (n + n2) := by
  simp only [bayesian_update, Prod.mk.injEq]
  constructor <;> ring

/-- C5 witness: composing the updates `(7 of 10)` then `(2 of 3)` at the
uniform prior agrees with the single update `(9 of 13)`. -/
theorem bayesian_update_additive_witness :
    bayesian_update (bayesian_update 1 1 7 10).1 (bayesian_update 1 1 7 10).2 2 3 =
      bayesian_update 1 1 (7 + 2) (10 + 3) :=
  bayesian_update_additive 1 1 7 10 2 3

/-- C10: `bayesian_update` performs no validation: it totals to the same
arithmetic result on every numeric input, including a negative success
count, more successes than trials, and non-positive priors — and can
therefore return non-positive posterior parameters. -/
theorem bayesian_update_no_validation :
    (∀ prior_alpha prior_beta successes trials : ℚ,
      bayesian_update prior_alpha prior_beta successes trials =
        (prior_alpha + successes, prior_beta + trials - successes)) ∧
    bayesian_update 1 1 (-2) 0 = (-1, 3) ∧
    bayesian_update 1 1 5 3 = (6, -1) ∧
    bayesian_update (-1) (-1) 0 0 = (-1, -1) := by
  refine ⟨fun a b s n => rfl, ?_, ?_, ?_⟩ <;> norm_num [bayesian_update]

/-- C10 witness: the arithmetic formula applied at a precondition-violating
input (negative success count), yielding a non-positive posterior alpha. -/
theorem bayesian_update_no_validation_witness :
    bayesian_update 1 1 (-2) 0 = (1 + (-2), 1 + 0 - (-2)) ∧
    bayesian_update 1 1 (-2) 0 = (-1, 3) :=
  ⟨bayesian_update_no_validation.1 1 1 (-2) 0,
    bayesian_update_no_validation.2.1⟩

/-! ## NumPy double values

The z-test and the confidence interval push finite Python floats through
`np.sqrt` and NumPy scalar division, which can produce the IEEE-754 special
values.  `NpFloat` models a NumPy double; `warnings.filterwarnings('ignore')`
at the top of the module suppresses the `RuntimeWarning`s these operations
emit, and none of them raises. -/

/-- A NumPy double as the source can produce it: a finite value (idealised
as an exact rational), one of the two infinities, or NaN. -/
inductive NpFloat where
  | val : ℚ → NpFloat
  | posInf
  | negInf
  | nan
deriving DecidableEq

/-- IEEE-754 division of a finite double `a` by a double, as NumPy performs
it: division by `+0.0` yields a signed infinity (or NaN for `0/0`) together
with a suppressed `RuntimeWarning` — never an exception. -/
def npDiv (a : ℚ) : NpFloat → NpFloat
  | .val b =>
    if b = 0 then
      if 0 < a then .posInf else if a < 0 then .negInf else .nan
    else .val (a / b)
  | .posInf => .val 0
  | .negInf => .val 0
  | .nan => .nan

/-- Application of `np.sqrt` to a finite double: NaN (with a suppressed
warning) on negative input, otherwise the library's nonnegative finite
result, abstracted as the parameter `sqrtFn`. -/
def npSqrt (sqrtFn : ℚ → ℚ) (x : ℚ) : NpFloat :=
  if x < 0 then .nan else .val (sqrtFn x)

/-- Subtraction `a - y` of a double from a finite double. -/
def npSubFin (a : ℚ) : NpFloat → NpFloat
  | .val b => .val (a - b)
  | .posInf => .negInf
  | .negInf => .posInf
  | .nan => .nan

/-- Addition `a + y` of a double to a finite double. -/
def npAddFin (a : ℚ) : NpFloat → NpFloat
  | .val b => .val (a + b)
  | .posInf => .posInf
  | .negInf => .negInf
  | .nan => .nan

/-- Product `a * y` of a finite double with a double. -/
def npMulFin (a : ℚ) : NpFloat → NpFloat
  | .val b => .val (a * b)
  | .posInf => if 0 < a then .posInf else if a < 0 then .negInf else .nan
  | .negInf => if 0 < a then .negInf else if a < 0 then .posInf else .nan
  | .nan => .nan

/-- Absolute value of a double. -/
def npAbs : NpFloat → NpFloat
  | .val q => .val |q|
  | .posInf => .posInf
  | .negInf => .posInf
  | .nan => .nan

/-- Comparison `x < b` of a double against a finite double; comparisons
against NaN are false. -/
def npLtFin (x : NpFloat) (b : ℚ) : Bool :=
  match x with
  | .val a => decide (a < b)
  | .posInf => false
  | .negInf => true
  | .nan => false

/-- Evaluation of `scipy.stats.norm.cdf` on a double: `Φ(+∞) = 1`,
`Φ(-∞) = 0`, `Φ(NaN) = NaN`; on a finite argument the library's finite
value, abstracted as the parameter `cdfFin`. -/
def norm_cdf (cdfFin : ℚ → ℚ) : NpFloat → NpFloat
  | .val q => .val (cdfFin q)
  | .posInf => .val 1
  | .negInf => .val 0
  | .nan => .nan

/-! ## `StatisticalAnalyzer.hypothesis_test_proportion`

```python
p_hat = successes / trials
se = np.sqrt(p0 * (1 - p0) / trials)
z_stat = (p_hat - p0) / se
if alternative == 'greater':
    p_value = 1 - norm.cdf(z_stat)
elif alternative == 'less':
    p_value = norm.cdf(z_stat)
else:
    p_value = 2 * (1 - norm.cdf(abs(z_stat)))
reject = p_value < alpha
```

The two scalar divisions by `trials` are Python number division and raise
`ZeroDivisionError` when `trials == 0`.  `se` is the NumPy double returned
by `np.sqrt`, so `(p_hat - p0) / se` is NumPy division: with `se == 0.0` it
yields `±inf` or NaN under a suppressed `RuntimeWarning` and the function
returns normally. -/

/-- A test-result dictionary
`{'z_statistic': ..., 'p_value': ..., 'reject_H0': ...}`. -/
structure TestResult where
  z_statistic : NpFloat
  p_value : NpFloat
  reject_H0 : Bool
deriving DecidableEq

/-- Embedding of `StatisticalAnalyzer.hypothesis_test_proportion`
(`sqrtFn` and `cdfFin` are the finite branches of `np.sqrt` and
`scipy.stats.norm.cdf`). -/
def hypothesis_test_proportion (sqrtFn cdfFin : ℚ → ℚ)
    (successes trials p0 : ℚ) (alpha : ℚ := 1/20)
    (alternative : String := "greater") : Except PyErr TestResult :=
  if trials = 0 then .error .zeroDivisionError
  else
    let p_hat := successes / trials
    let se := npSqrt sqrtFn (p0 * (1 - p0) / trials)
    let z_stat := npDiv (p_hat - p0) se
    if alternative = "greater" then
      let p_value := npSubFin 1 (norm_cdf cdfFin z_stat)
      .ok { z_statistic := z_stat, p_value := p_value,
            reject_H0 := npLtFin p_value alpha }
    else if alternative = "less" then
      let p_value := norm_cdf cdfFin z_stat
      .ok { z_statistic := z_stat, p_value := p_value,
            reject_H0 := npLtFin p_value alpha }
    else
      let p_value := npMulFin 2 (npSubFin 1 (norm_cdf cdfFin (npAbs z_stat)))
      .ok { z_statistic := z_stat, p_value := p_value,
            reject_H0 := npLtFin p_value alpha }

/-- Whenever `trials ≠ 0` the test returns a result record; its z-statistic
is always the NumPy quotient of `p_hat - p0` by the standard error. -/
theorem hypothesis_test_ok_shape (sqrtFn cdfFin : ℚ → ℚ)
    (successes trials p0 alpha : ℚ) (alternative : String)
    (ht : trials ≠ 0) :
    ∃ pv rj,
      hypothesis_test_proportion sqrtFn cdfFin successes trials p0 alpha alternative =
        .ok { z_statistic :=
                npDiv (successes / trials - p0)
                  (npSqrt sqrtFn (p0 * (1 - p0) / trials)),
              p_value := pv, reject_H0 := rj } := by
  simp only [hypothesis_test_proportion, if_neg ht]
  by_cases hg : alternative = "greater"
  · rw [if_pos hg]
    exact ⟨_, _, rfl⟩
  · rw [if_neg hg]
    by_cases hl : alternative = "less"
    · rw [if_pos hl]
      exact ⟨_, _, rfl⟩
    · rw [if_neg hl]
      exact ⟨_, _, rfl⟩

/-- NumPy division of a finite double by `+0.0`: a signed infinity, or NaN
for `0/0`. -/
theorem npDiv_val_zero (a : ℚ) :
    npDiv a (.val 0) =
      if 0 < a then NpFloat.posInf else if a < 0 then NpFloat.negInf else NpFloat.nan := by
  simp [npDiv]

/-- A concrete stand-in for the finite branches of the library routines.
The degenerate-`p0` results below are independent of it: the only finite
library value on those paths is `√0`, which `zeroFn` gets right, and the
normal cdf is only taken at `±∞`/NaN, where `norm_cdf` does not consult its
finite branch. -/
def zeroFn : ℚ → ℚ := fun _ => 0

/-- C3 counterexample: at `successes = 60`, `trials = 100`, `p0 = 0`,
`alpha = 0.05`, `alternative = 'greater'`, the call does NOT propagate any
error: it returns normally with `z = +inf`, `p_value = 0.0` and
`reject_H0 = True` (NumPy division by the zero standard error, warning
suppressed). -/
theorem hypothesis_test_p0_zero_counterexample :
    hypothesis_test_proportion zeroFn zeroFn 60 100 0 (1/20) "greater" =
      .ok { z_statistic := .posInf, p_value := .val 0, reject_H0 := true } := by
  norm_num [hypothesis_test_proportion, npSqrt, zeroFn, npDiv, norm_cdf,
    npSubFin, npLtFin]

/-- C3 (amended): for `trials ≠ 0` and `p0 ∈ {0, 1}` the standard error is
`+0.0` and the division by it does not raise: the call returns normally,
with an infinite or NaN z-statistic (no domain error surfaces; the module
even suppresses the `RuntimeWarning`). -/
theorem hypothesis_test_p0_degenerate (sqrtFn cdfFin : ℚ → ℚ)
    (successes trials p0 alpha : ℚ) (alternative : String)
    (htr : trials ≠ 0) (hsq : sqrtFn 0 = 0) (hp0 : p0 = 0 ∨ p0 = 1) :
    ∃ r,
      hypothesis_test_proportion sqrtFn cdfFin successes trials p0 alpha alternative =
        .ok r ∧
      (r.z_statistic = .posInf ∨ r.z_statistic = .negInf ∨ r.z_statistic = .nan) := by
  obtain ⟨pv, rj, hok⟩ :=
    hypothesis_test_ok_shape sqrtFn cdfFin successes trials p0 alpha alternative htr
  have harg : p0 * (1 - p0) / trials = 0 := by
    rcases hp0 with rfl | rfl <;> norm_num
  have hse : npSqrt sqrtFn (p0 * (1 - p0) / trials) = .val 0 := by
    rw [harg, npSqrt, if_neg (lt_irrefl 0), hsq]
  rw [hse] at hok
  refine ⟨_, hok, ?_⟩
  show npDiv (successes / trials - p0) (.val 0) = NpFloat.posInf ∨
    npDiv (successes / trials - p0) (.val 0) = NpFloat.negInf ∨
    npDiv (successes / trials - p0) (.val 0) = NpFloat.nan
  rw [npDiv_val_zero]
  rcases lt_trichotomy 0 (successes / trials - p0) with h | h | h
  · rw [if_pos h]
    exact Or.inl rfl
  · rw [if_neg (by rw [← h]; exact lt_irrefl 0), if_neg (by rw [← h]; exact lt_irrefl 0)]
    exact Or.inr (Or.inr rfl)
  · rw [if_neg (not_lt_of_gt h), if_pos h]
    exact Or.inr (Or.inl rfl)

/-- C3 witness for the amended statement, at the spec's own test point with
`p0 = 0`. -/
theorem hypothesis_test_p0_degenerate_witness :
    ((100:ℚ) ≠ 0) ∧ zeroFn 0 = 0 ∧ ((0:ℚ) = 0 ∨ (0:ℚ) = 1) ∧
    ∃ r,
      hypothesis_test_proportion zeroFn zeroFn 60 100 0 (1/20) "greater" =
        .ok r ∧
      (r.z_statistic = .posInf ∨ r.z_statistic = .negInf ∨ r.z_statistic = .nan) :=
  ⟨by norm_num, rfl, Or.inl rfl,
    hypothesis_test_p0_degenerate zeroFn zeroFn 60 100 0 (1/20) "greater"
      (by norm_num) rfl (Or.inl rfl)⟩

/-! ## `StatisticalAnalyzer.confidence_interval_proportion`

```python
p_hat = successes / trials
z_alpha = norm.ppf(1 - (1 - confidence) / 2)
se = np.sqrt(p_hat * (1 - p_hat) / trials)
lower = p_hat - z_alpha * se
upper = p_hat + z_alpha * se
return lower, upper
```

`successes / trials` raises `ZeroDivisionError` when `trials == 0`;
`norm.ppf` at the confidences considered (strictly between 0 and 1) is a
finite double, abstracted as `ppfFn`; `se` is the NumPy double returned by
`np.sqrt`, so the bounds are NumPy doubles. -/

/-- Embedding of `StatisticalAnalyzer.confidence_interval_proportion`. -/
def confidence_interval_proportion (sqrtFn ppfFn : ℚ → ℚ)
    (successes trials : ℚ) (confidence : ℚ := 95/100) :
    Except PyErr (NpFloat × NpFloat) :=
  if trials = 0 then .error .zeroDivisionError
  else
    let p_hat := successes / trials
    let z_alpha := ppfFn (1 - (1 - confidence) / 2)
    let se := npSqrt sqrtFn (p_hat * (1 - p_hat) / trials)
    .ok (npSubFin p_hat (npMulFin z_alpha se), npAddFin p_hat (npMulFin z_alpha se))

/-- C7: with `0 < successes < trials` and the default confidence `0.95`, the
interval brackets the point estimate `p_hat = successes / trials`.  The two
library facts used: `np.sqrt` is nonnegative on nonnegative input, and the
normal quantile at `0.975` is nonnegative. -/
theorem confidence_interval_brackets (sqrtFn ppfFn : ℚ → ℚ)
    (successes trials : ℚ)
    (hs : 0 < successes) (hn : successes < trials)
    (hsq : ∀ x, 0 ≤ x → 0 ≤ sqrtFn x)
    (hppf : 0 ≤ ppfFn (39/40)) :
    ∃ lower upper : ℚ,
      confidence_interval_proportion sqrtFn ppfFn successes trials (95/100) =
        .ok (.val lower, .val upper) ∧
      lower ≤ successes / trials ∧ successes / trials ≤ upper := by
  have ht : (0:ℚ) < trials := lt_trans hs hn
  have hphat0 : 0 < successes / trials := div_pos hs ht
  have hphat1 : successes / trials < 1 := (div_lt_one ht).mpr hn
  have hargpos : 0 ≤ successes / trials * (1 - successes / trials) / trials :=
    le_of_lt (div_pos (mul_pos hphat0 (by linarith)) ht)
  have hq : (1:ℚ) - (1 - 95/100) / 2 = 39/40 := by norm_num
  have hse : npSqrt sqrtFn (successes / trials * (1 - successes / trials) / trials) =
      .val (sqrtFn (successes / trials * (1 - successes / trials) / trials)) := by
    rw [npSqrt, if_neg (not_lt.mpr hargpos)]
  have hzse : 0 ≤ ppfFn (39/40) *
      sqrtFn (successes / trials * (1 - successes / trials) / trials) :=
    mul_nonneg hppf (hsq _ hargpos)
  refine ⟨successes / trials - ppfFn (39/40) *
      sqrtFn (successes / trials * (1 - successes / trials) / trials),
    successes / trials + ppfFn (39/40) *
      sqrtFn (successes / trials * (1 - successes / trials) / trials),
    ?_, by linarith, by linarith⟩
  simp only [confidence_interval_proportion, if_neg (ne_of_gt ht), hq, hse,
    npMulFin, npSubFin, npAddFin]

/-- C7 witness: one success out of two trials, with concrete nonnegative
models of the two library routines. -/
theorem confidence_interval_brackets_witness :
    ((0:ℚ) < 1) ∧ ((1:ℚ) < 2) ∧ (∀ x : ℚ, 0 ≤ x → 0 ≤ zeroFn x) ∧
    (0 ≤ (196:ℚ)/100) ∧
    ∃ lower upper : ℚ,
      confidence_interval_proportion zeroFn (fun _ => 196/100) 1 2 (95/100) =
        .ok (.val lower, .val upper) ∧
      lower ≤ (1:ℚ) / 2 ∧ (1:ℚ) / 2 ≤ upper :=
  ⟨by norm_num, by norm_num, fun x _ => le_refl 0, by norm_num,
    confidence_interval_brackets zeroFn (fun _ => 196/100) 1 2 (by norm_num)
      (by norm_num) (fun x _ => le_refl 0) (by norm_num)⟩

/-! ## `StatisticalAnalyzer.fit_weibull_distribution`

```python
params = weibull_min.fit(data, floc=0)
k, loc, scale = params
return {'k': k, 'lambda': scale}
```

The wrapper catches nothing and fixes the location parameter at zero via
`floc=0`. -/

/-- Exceptions `scipy.stats.weibull_min.fit` raises: an empty sample, or
sample values outside the support of the distribution above the fixed
location. -/
inductive FitError where
  | emptyData
  | dataOutOfRange
deriving DecidableEq

/-- Modelled from the library contract of
`scipy.stats.weibull_min.fit(data, floc=c)`: fitting fails on an empty
sample and on samples with values outside the Weibull support above the
fixed location (non-positive values when `floc = 0`); otherwise it returns
`(shape, loc, scale)` with `loc` pinned at `floc` and shape/scale produced
by the library's maximum-likelihood optimiser, abstracted as `mle`. -/
def weibull_min_fit (mle : List ℚ → ℚ × ℚ) (data : List ℚ) (floc : ℚ) :
    Except FitError (ℚ × ℚ × ℚ) :=
  if data.isEmpty then .error .emptyData
  else if data.any (fun x => decide (x ≤ floc)) then .error .dataOutOfRange
  else .ok ((mle data).1, floc, (mle data).2)

/-- A fit-result dictionary `{'k': ..., 'lambda': ...}`. -/
structure WeibullResult where
  k : ℚ
  lambda : ℚ
deriving DecidableEq

/-- Embedding of `StatisticalAnalyzer.fit_weibull_distribution`. -/
def fit_weibull_distribution (mle : List ℚ → ℚ × ℚ) (data : List ℚ) :
    Except FitError WeibullResult :=
  match weibull_min_fit mle data 0 with
  | .error e => .error e
  | .ok params => .ok { k := params.1, lambda := params.2.2 }

/-- C8: `fit_weibull_distribution` fails with a propagated `FitError`
exactly when the sample is empty or contains a non-positive value; on every
other sample it returns the shape and scale of the underlying fit, whose
location parameter is fixed at zero. -/
theorem fit_weibull_error_iff :
    (∀ (mle : List ℚ → ℚ × ℚ) (data : List ℚ),
      (fit_weibull_distribution mle data).isOk = false ↔
        data = [] ∨ ∃ x ∈ data, x ≤ 0) ∧
    (∀ (mle : List ℚ → ℚ × ℚ) (data : List ℚ),
      data ≠ [] → (∀ x ∈ data, 0 < x) →
      fit_weibull_distribution mle data =
          .ok { k := (mle data).1, lambda := (mle data).2 } ∧
        weibull_min_fit mle data 0 = .ok ((mle data).1, 0, (mle data).2)) := by
  have hcase : ∀ (mle : List ℚ → ℚ × ℚ) (data : List ℚ),
      data ≠ [] → ¬ (∃ x ∈ data, x ≤ 0) →
      weibull_min_fit mle data 0 = .ok ((mle data).1, 0, (mle data).2) := by
    intro mle data hne hpos
    rw [weibull_min_fit, if_neg (by simpa [List.isEmpty_iff] using hne), if_neg ?_]
    simp only [List.any_eq_true, decide_eq_true_eq]
    exact hpos
  constructor
  · intro mle data
    constructor
    · intro h
      by_contra hcon
      push_neg at hcon
      obtain ⟨hne, hpos⟩ := hcon
      have hpos' : ¬ ∃ x ∈ data, x ≤ 0 := by
        rintro ⟨x, hx, hxle⟩
        exact absurd (hpos x hx) (not_lt.mpr hxle)
      rw [fit_weibull_distribution, hcase mle data hne hpos'] at h
      simp [Except.isOk, Except.toBool] at h
    · rintro (rfl | ⟨x, hx, hxle⟩)
      · rfl
      · have hne : data.isEmpty = false := by
          rcases data with _ | _
          · cases hx
          · rfl
        rw [fit_weibull_distribution, weibull_min_fit, hne]
        simp only [Bool.false_eq_true, if_false]
        rw [if_pos (List.any_eq_true.mpr ⟨x, hx, by simpa using hxle⟩)]
        rfl
  · intro mle data hne hpos
    have hpos' : ¬ ∃ x ∈ data, x ≤ 0 := by
      rintro ⟨x, hx, hxle⟩
      exact absurd (hpos x hx) (not_lt.mpr hxle)
    have hfit := hcase mle data hne hpos'
    refine ⟨?_, hfit⟩
    rw [fit_weibull_distribution, hfit]

/-- C8 witness: the sample `[1, 2]` fits successfully with location zero,
for any model of the optimiser. -/
theorem fit_weibull_error_iff_witness :
    (([(1:ℚ), 2] ≠ []) ∧ (∀ x ∈ [(1:ℚ), 2], 0 < x)) ∧
    fit_weibull_distribution (fun _ => (2, 5)) [1, 2] =
        .ok { k := 2, lambda := 5 } ∧
      weibull_min_fit (fun _ => (2, 5)) [1, 2] 0 = .ok (2, 0, 5) := by
  have hpos : ∀ x ∈ [(1:ℚ), 2], 0 < x := by
    intro x hx
    simp only [List.mem_cons, List.not_mem_nil, or_false] at hx
    rcases hx with rfl | rfl <;> norm_num
  exact ⟨⟨by simp, hpos⟩,
    fit_weibull_error_iff.2 (fun _ => (2, 5)) [1, 2] (by simp) hpos⟩

end BatteryQC
